import Mathlib

/-!
# Verification of the `power` moderation bot (`power_bot.py`)

A shallow embedding of the moderation core of `power_bot.py`:

* the link filter (`LINK_REGEX`, `contains_allowed_link`),
* the SQLite-backed store (`bans`, `warns`, `links` tables and their helpers),
* the in-memory sliding-window spam tracker (`add_message_time`),
* the event handlers (`new_member_handler`, `message_handler`).

Python strings are modelled as lists of Unicode code points (`PyStr`);
`str.lower()` is modelled on the Basic Latin range, which is the only
range the embedded constants use.  Timestamps are integers (one unit =
one second; `datetime.utcnow()` values are opaque inputs).  Telegram API
calls are modelled through a success oracle `g : GAction → Bool`: the
handler consults `g` exactly where the Python code performs an `await`
that may raise, and the `try`/`except` structure of the source decides
whether a failed call is swallowed, answered, or escapes the handler
(`raised`).  Database mutations performed by a handler are recorded as an
explicit list of `StoreOp`s (applied by `applyOps`), which lets theorems
speak about "the state mutations performed" directly.
-/

namespace PowerBot

/-- A Python string, as its list of Unicode code points. -/
abbrev PyStr := List Nat

/-- Code points of a Lean string literal (used to embed the constants of
`power_bot.py`). -/
def chars (s : String) : PyStr := s.data.map Char.toNat

/-- `str.lower()` on one code point (Basic Latin range, the only range the
embedded constants use). -/
def lowerC (n : Nat) : Nat := if 65 ≤ n ∧ n ≤ 90 then n + 32 else n

/-- `str.lower()` on a whole string. -/
def lowerS (s : PyStr) : PyStr := s.map lowerC

/-- Python `\s` on the ASCII range: the whitespace class used by `\S` in
`LINK_REGEX = re.compile(r"https?://\S+")`. -/
def isPySpace (n : Nat) : Bool :=
  n == 32 || n == 9 || n == 10 || n == 13 || n == 11 || n == 12

/-- Does `LINK_REGEX` (`https?://\S+`) match starting at the head of `s`?
A match needs the literal scheme followed by at least one non-whitespace
code point. -/
def linkAt (s : PyStr) : Bool :=
  ((chars "http://").isPrefixOf s &&
    (match s.drop 7 with
     | c :: _ => !isPySpace c
     | [] => false)) ||
  ((chars "https://").isPrefixOf s &&
    (match s.drop 8 with
     | c :: _ => !isPySpace c
     | [] => false))

/-- `LINK_REGEX.findall(s) ≠ []`: some suffix of `s` starts with an
`https?://\S+` match. -/
def hasLink : PyStr → Bool
  | [] => false
  | c :: rest => linkAt (c :: rest) || hasLink rest

/-- `contains_allowed_link(text)` of `power_bot.py`, with the `links`
table passed explicitly (the Python reads it via `list_allowed_links()`):
lowercase `text`, then return `True` iff some non-empty entry `l`
(`if l and l.lower() in txt`) has its lowercase form as a substring. -/
def contains_allowed_link (text : PyStr) (links : List PyStr) : Bool :=
  if links.isEmpty then false
  else
    let txt := lowerS text
    links.any fun l => !l.isEmpty && decide (lowerS l <:+: txt)

/-- Verdict of the link policy. -/
inductive LinkClass where
  | Allowed
  | Disallowed
deriving DecidableEq

/-- The link policy as composed in `message_handler` (lines 342–348):
lowercase the text, look for `LINK_REGEX` matches, and if any are found
consult `contains_allowed_link` on the lowered text. -/
def classify (text : PyStr) (links : List PyStr) : LinkClass :=
  let txt := lowerS text
  if hasLink txt then
    if contains_allowed_link txt links then .Allowed else .Disallowed
  else .Allowed

/-- Modelled from the spec's words (§4.3 / claim C3), for comparison with
`classify`: scan the text itself for URL-pattern substrings; if one is
found, allow iff some allow-list entry, lowercased, is a substring of the
lowercased text (no non-emptiness proviso). -/
def classifySpec (text : PyStr) (links : List PyStr) : LinkClass :=
  if hasLink text then
    if links.any (fun l => decide (lowerS l <:+: lowerS text)) then .Allowed
    else .Disallowed
  else .Allowed

/-- Reasons written to the `bans` table by `power_bot.py`. -/
inductive Reason where
  | noReason
  | manualByOwner (ownerId : Int)
  | spam
  | postedDisallowedLink
deriving DecidableEq

/-- A row of the `bans` table (`user_id` is the key). -/
structure BanRecord where
  reason : Reason
  banned_at : Int
deriving DecidableEq

/-- A row of the `warns` table (`user_id` is the key). -/
structure WarnRecord where
  count : Nat
  last_warn : Int
deriving DecidableEq

/-- The persistent store: the three SQLite tables keyed as in the schema
(`bans` and `warns` by `user_id`, `links` by the link text). -/
structure Store where
  bans : Int → Option BanRecord
  warns : Int → Option WarnRecord
  links : List PyStr

/-- A store with all three tables empty. -/
def emptyStore : Store :=
  { bans := fun _ => none, warns := fun _ => none, links := [] }

/-- `add_allowed_link`: `INSERT OR IGNORE INTO links`. -/
def add_allowed_link (s : Store) (link : PyStr) : Store :=
  if link ∈ s.links then s else { s with links := s.links ++ [link] }

/-- `remove_allowed_link`: `DELETE FROM links WHERE link=?`. -/
def remove_allowed_link (s : Store) (link : PyStr) : Store :=
  { s with links := s.links.filter (· ≠ link) }

/-- `list_allowed_links`: `SELECT link FROM links`. -/
def list_allowed_links (s : Store) : List PyStr := s.links

/-- `ban_user_db`: `INSERT OR REPLACE INTO bans(user_id, reason)`; the
`banned_at` column defaults to `CURRENT_TIMESTAMP`, passed as `now`. -/
def ban_user_db (s : Store) (u : Int) (reason : Reason) (now : Int) : Store :=
  { s with bans := fun v => if v = u then some ⟨reason, now⟩ else s.bans v }

/-- `unban_user_db`: `DELETE FROM bans WHERE user_id=?`. -/
def unban_user_db (s : Store) (u : Int) : Store :=
  { s with bans := fun v => if v = u then none else s.bans v }

/-- `is_banned_db`: `SELECT 1 FROM bans WHERE user_id=?` is non-empty. -/
def is_banned_db (s : Store) (u : Int) : Bool := (s.bans u).isSome

/-- `warn_user_db`: read the current count, increment it (creating the
row at 1), stamp `last_warn` with `CURRENT_TIMESTAMP` (`now`), and return
the new count along with the updated store. -/
def warn_user_db (s : Store) (u : Int) (now : Int) : Nat × Store :=
  match s.warns u with
  | some r =>
    let cnt := r.count + 1
    (cnt, { s with warns := fun v => if v = u then some ⟨cnt, now⟩ else s.warns v })
  | none =>
    (1, { s with warns := fun v => if v = u then some ⟨1, now⟩ else s.warns v })

/-- `reset_warns_db`: `DELETE FROM warns WHERE user_id=?`. -/
def reset_warns_db (s : Store) (u : Int) : Store :=
  { s with warns := fun v => if v = u then none else s.warns v }

/-- `add_message_time`: append `now` to the user's deque, pop from the
front while the head is strictly older than `now - 60` seconds, and
return the resulting length together with the resulting deque. -/
def add_message_time (dq : List Int) (now : Int) : Nat × List Int :=
  let dq2 := (dq ++ [now]).dropWhile (fun t => decide (t < now - 60))
  (dq2.length, dq2)

/-- The successive return values of `add_message_time` over a sequence of
call timestamps, starting from deque `dq`. -/
def windowSteps : List Int → List Int → List Nat
  | _, [] => []
  | dq, t :: ts =>
    let r := add_message_time dq t
    r.1 :: windowSteps r.2 ts

/-- The successive return values of `add_message_time` for a fresh user
(empty deque, as `defaultdict(lambda: deque())` provides). -/
def windowCounts (ts : List Int) : List Nat := windowSteps [] ts

/-- The distinct chat messages the two handlers can send (each constructor
is one literal of `power_bot.py`, with its interpolated fields). -/
inductive Msg where
  | welcome (name : PyStr)
  | spamWarn (n : Nat)
  | bannedForSpam (name : PyStr)
  | failedToBan
  | needBanRights
  | pmRemovedForLink (chatTitle : PyStr)
  | removedForLink (name : PyStr)
  | faqReply
deriving DecidableEq

/-- A call on the action gateway (the Telegram bot API), as attempted by
the handlers. -/
inductive GAction where
  | deleteMessage (chat mid : Int)
  | banMember (chat u : Int)
  | unbanMember (chat u : Int)
  | sendMessage (target : Int) (m : Msg)
deriving DecidableEq

/-- A database mutation performed by `message_handler`. -/
inductive StoreOp where
  | opBan (u : Int) (reason : Reason) (now : Int)
  | opWarn (u : Int) (now : Int)
deriving DecidableEq

/-- Apply one recorded mutation to the store. -/
def applyOp (s : Store) : StoreOp → Store
  | .opBan u r t => ban_user_db s u r t
  | .opWarn u t => (warn_user_db s u t).2

/-- Apply a handler's recorded mutations in order. -/
def applyOps (s : Store) (ops : List StoreOp) : Store := ops.foldl applyOp s

/-- The environment configuration read at startup. -/
structure Config where
  OWNER_ID : Int
  ALLOWED_CHAT_IDS : List Int
  SPAM_MAX : Nat

/-- A joining chat member as seen by `new_member_handler` (`name` stands
for `first_name or full_name`). -/
structure Member where
  id : Int
  name : PyStr
deriving DecidableEq

/-- The body of `new_member_handler`'s loop for one member: a banned
member gets `ban_chat_member` and, when that call succeeds,
`unban_chat_member` (both inside `try/except: pass`, so neither failure
escapes); anyone else gets the welcome reply, whose failure is uncaught
(second component `true` = an exception escaped the handler). -/
def new_member_one (g : GAction → Bool) (s : Store) (chat : Int) (m : Member) :
    List GAction × Bool :=
  if is_banned_db s m.id then
    let a1 := GAction.banMember chat m.id
    if g a1 then ([a1, GAction.unbanMember chat m.id], false)
    else ([a1], false)
  else
    let w := GAction.sendMessage chat (Msg.welcome m.name)
    ([w], !(g w))

/-- `new_member_handler`: iterate over `update.message.new_chat_members`,
stopping early if an uncaught exception escapes.  Returns the attempted
gateway calls in order and whether an exception escaped. -/
def new_member_handler (g : GAction → Bool) (s : Store) (chat : Int) :
    List Member → List GAction × Bool
  | [] => ([], false)
  | m :: ms =>
    let r := new_member_one g s chat m
    if r.2 then (r.1, true)
    else
      let rest := new_member_handler g s chat ms
      (r.1 ++ rest.1, rest.2)

/-- The trigger words of the auxiliary auto-reply at the end of
`message_handler` (`any(w in text for w in ["বান", "remove", "ban"])`). -/
def faqWords : List PyStr := [chars "বান", chars "remove", chars "ban"]

/-- What one `message_handler` run did: the gateway calls attempted in
order, the database mutations performed in order, the sender's updated
in-memory deque, and whether an uncaught exception escaped. -/
structure MHResult where
  attempted : List GAction
  ops : List StoreOp
  window : List Int
  raised : Bool
deriving DecidableEq

/-- `message_handler`, for one text message.  Inputs: the configuration,
the gateway success oracle `g`, the store `s`, the sender's in-memory
deque `dq`, the current time `now`, the chat id, sender id and message
id, the raw message text, the sender's `full_name` and the chat title.
The structure mirrors the source line by line: the empty/None text guard,
the `ALLOWED_CHAT_IDS` filter, the owner bypass, then the anti-spam
branch (warn, reply, and on the third warn `ban_chat_member` followed —
only on success — by `ban_user_db`, with the `except` branch replying
`failedToBan`), then the link branch (delete in `try/except: pass`, then
`ban_chat_member`; only on success `ban_user_db`, PM and final reply; on
failure the `needBanRights` reply), and finally the FAQ auto-reply. -/
def message_handler (cfg : Config) (g : GAction → Bool) (s : Store)
    (dq : List Int) (now : Int) (chat uid mid : Int)
    (text name title : PyStr) : MHResult :=
  if text = [] then ⟨[], [], dq, false⟩
  else if !cfg.ALLOWED_CHAT_IDS.isEmpty && !cfg.ALLOWED_CHAT_IDS.contains chat then
    ⟨[], [], dq, false⟩
  else if uid = cfg.OWNER_ID then ⟨[], [], dq, false⟩
  else
    let r := add_message_time dq now
    let dq2 := r.2
    if r.1 > cfg.SPAM_MAX then
      let warns := (warn_user_db s uid now).1
      let wop := StoreOp.opWarn uid now
      let a1 := GAction.sendMessage chat (Msg.spamWarn warns)
      if !(g a1) then ⟨[a1], [wop], dq2, true⟩
      else if warns ≥ 3 then
        let a2 := GAction.banMember chat uid
        if g a2 then
          let a3 := GAction.sendMessage chat (Msg.bannedForSpam name)
          if g a3 then ⟨[a1, a2, a3], [wop, .opBan uid .spam now], dq2, false⟩
          else
            let a4 := GAction.sendMessage chat Msg.failedToBan
            ⟨[a1, a2, a3, a4], [wop, .opBan uid .spam now], dq2, !(g a4)⟩
        else
          let a4 := GAction.sendMessage chat Msg.failedToBan
          ⟨[a1, a2, a4], [wop], dq2, !(g a4)⟩
      else ⟨[a1], [wop], dq2, false⟩
    else
      let txt := lowerS text
      if hasLink txt then
        if contains_allowed_link txt s.links then ⟨[], [], dq2, false⟩
        else
          let d := GAction.deleteMessage chat mid
          let b := GAction.banMember chat uid
          if g b then
            let pm := GAction.sendMessage uid (Msg.pmRemovedForLink title)
            let fin := GAction.sendMessage chat (Msg.removedForLink name)
            ⟨[d, b, pm, fin], [.opBan uid .postedDisallowedLink now], dq2, !(g fin)⟩
          else
            let nb := GAction.sendMessage chat Msg.needBanRights
            ⟨[d, b, nb], [], dq2, !(g nb)⟩
      else
        if faqWords.any (fun w => decide (w <:+: txt)) then
          let f := GAction.sendMessage chat Msg.faqReply
          ⟨[f], [], dq2, !(g f)⟩
        else ⟨[], [], dq2, false⟩

/-- The return values of `k` sequential `warn_user_db` calls for user `u`,
threading the store. -/
def warnReturns (s : Store) (u : Int) (now : Int) : Nat → List Nat
  | 0 => []
  | k + 1 =>
    let r := warn_user_db s u now
    r.1 :: warnReturns r.2 u now k

/-- The deque reached by running `add_message_time` over the timestamps
`ts` in order, starting from deque `dq`. -/
def windowFold (dq : List Int) (ts : List Int) : List Int :=
  ts.foldl (fun d t => (add_message_time d t).2) dq

/-- A gateway on which every call succeeds. -/
def gwOk : GAction → Bool := fun _ => true

/-- A gateway on which exactly the `banMember` calls fail (e.g. the bot
lacks ban rights). -/
def gwBanFail : GAction → Bool
  | .banMember _ _ => false
  | _ => true

/-- Sample configuration: owner id `1`, no chat restriction, spam
threshold `0` (every message is over threshold). -/
def cfg0 : Config := ⟨1, [], 0⟩

/-- Sample store in which user `2` already has two warns. -/
def storeWarned2 : Store :=
  { emptyStore with warns := fun v => if v = 2 then some ⟨2, 0⟩ else none }

/-- Sample store in which user `7` is banned. -/
def storeBanned7 : Store := ban_user_db emptyStore 7 .noReason 0

/-! ## Warn counter and ban round-trip (claims C5, C7) -/

theorem warnReturns_of_some (u : Int) (now : Int) :
    ∀ (k : Nat) (s : Store) (c : Nat) (t : Int), s.warns u = some ⟨c, t⟩ →
      warnReturns s u now k = List.range' (c + 1) k
  | 0, _, _, _, _ => by simp [warnReturns]
  | k + 1, s, c, t, h => by
    have h2 : (warn_user_db s u now).2.warns u = some ⟨c + 1, now⟩ := by
      simp [warn_user_db, h]
    have h1 : (warn_user_db s u now).1 = c + 1 := by simp [warn_user_db, h]
    simp only [warnReturns]
    rw [h1, warnReturns_of_some u now k _ (c + 1) now h2, List.range'_succ]

/-- C5: for a user with no warn record, `k` sequential `warn_user_db`
calls return `1, 2, …, k` in order; and for every user and every prior
state of the `warns` table, `reset_warns_db` followed by `warn_user_db`
returns `1` (the reset deletes the row, so the next warn re-creates it
at `1`). -/
theorem recordWarn_sequence (s : Store) (u : Int) (now : Int) (k : Nat) :
    (s.warns u = none → warnReturns s u now k = List.range' 1 k) ∧
    (warn_user_db (reset_warns_db s u) u now).1 = 1 := by
  constructor
  · intro h
    cases k with
    | zero => simp [warnReturns]
    | succ k =>
      have h2 : (warn_user_db s u now).2.warns u = some ⟨1, now⟩ := by
        simp [warn_user_db, h]
      have h1 : (warn_user_db s u now).1 = 1 := by simp [warn_user_db, h]
      simp only [warnReturns]
      rw [h1, warnReturns_of_some u now k _ 1 now h2, List.range'_succ]
  · simp [warn_user_db, reset_warns_db]

/-- Witness for C5: on the empty store, user `5`, three calls return
`[1, 2, 3]`; and on a store where user `2` already has two warns, a
reset followed by a warn returns `1`. -/
theorem recordWarn_sequence_witness :
    (emptyStore.warns 5 = none ∧ warnReturns emptyStore 5 0 3 = List.range' 1 3) ∧
    (storeWarned2.warns 2 = some ⟨2, 0⟩ ∧
     (warn_user_db (reset_warns_db storeWarned2 2) 2 0).1 = 1) :=
  ⟨⟨rfl, (recordWarn_sequence emptyStore 5 0 3).1 rfl⟩,
   ⟨rfl, (recordWarn_sequence storeWarned2 2 0 0).2⟩⟩

/-- C7: `ban_user_db` followed by `is_banned_db` is `true`, and
`unban_user_db` followed by `is_banned_db` is `false`, on any prior
state of the `bans` table. -/
theorem ban_isBanned_roundtrip (s : Store) (u : Int) (reason : Reason) (now : Int) :
    is_banned_db (ban_user_db s u reason now) u = true ∧
    is_banned_db (unban_user_db s u) u = false := by
  constructor <;> simp [is_banned_db, ban_user_db, unban_user_db]

/-! ## The sliding window (claims C1, C9) -/

theorem dropWhile_append_singleton_ne_nil {α : Type} (p : α → Bool) (a : α)
    (h : p a = false) : ∀ l : List α, (l ++ [a]).dropWhile p ≠ []
  | [] => by simp [List.dropWhile, h]
  | b :: l => by
    by_cases hb : p b
    · simpa [List.dropWhile_cons, hb] using dropWhile_append_singleton_ne_nil p a h l
    · simp [List.dropWhile_cons, hb]

/-- C9: `add_message_time` always returns at least `1`: the timestamp it
just appended is never evicted. -/
theorem add_message_time_returns_pos (dq : List Int) (now : Int) :
    1 ≤ (add_message_time dq now).1 := by
  have h : (fun t : Int => decide (t < now - 60)) now = false := by
    simp only [decide_eq_false_iff_not]
    omega
  have hne := dropWhile_append_singleton_ne_nil (fun t : Int => decide (t < now - 60)) now h dq
  simp only [add_message_time]
  exact List.length_pos.mpr hne

theorem getLast?_cons_of_ne_nil {α : Type} (a : α) {l : List α} (h : l ≠ []) :
    (a :: l).getLast? = l.getLast? := by
  cases l with
  | nil => exact absurd rfl h
  | cons b l => exact List.getLast?_cons_cons

theorem windowSteps_getLast (t : Int) :
    ∀ (ts : List Int) (dq : List Int),
      (windowSteps dq (ts ++ [t])).getLast? = some (windowFold dq (ts ++ [t])).length
  | [], dq => by simp [windowSteps, windowFold, add_message_time]
  | a :: ts, dq => by
    have hne : windowSteps (add_message_time dq a).2 (ts ++ [t]) ≠ [] := by
      cases ts <;> simp [windowSteps]
    rw [List.cons_append]
    simp only [windowSteps]
    rw [getLast?_cons_of_ne_nil _ hne, windowSteps_getLast t ts _]
    simp [windowFold]

theorem sorted_dropWhile_lt_eq_filter (c : Int) :
    ∀ l : List Int, l.Sorted (· ≤ ·) →
      l.dropWhile (fun t => decide (t < c)) = l.filter (fun t => decide (c ≤ t))
  | [], _ => rfl
  | a :: l, h => by
    rcases List.sorted_cons.mp h with ⟨ha, hl⟩
    by_cases hac : a < c
    · have h1 : (decide (a < c)) = true := by simpa using hac
      have h2 : (decide (c ≤ a)) = false := by simp; omega
      simp [List.dropWhile_cons, List.filter_cons, h1, h2,
        sorted_dropWhile_lt_eq_filter c l hl]
    · have h1 : (decide (a < c)) = false := by simpa using hac
      have h2 : (decide (c ≤ a)) = true := by simp; omega
      have h3 : List.filter (fun t => decide (c ≤ t)) l = l :=
        List.filter_eq_self.mpr fun x hx => by
          have := ha x hx
          simp only [decide_eq_true_iff]
          omega
      simp [List.dropWhile_cons, List.filter_cons, h1, h2, h3]

theorem windowFold_sorted (l : List Int) (t : Int)
    (hs : (l ++ [t]).Sorted (· ≤ ·)) :
    windowFold [] (l ++ [t]) = (l ++ [t]).filter (fun x => decide (t - 60 ≤ x)) := by
  rcases List.eq_nil_or_concat l with rfl | ⟨l2, m2, hcat⟩
  · have h1 : ¬ (t < t - 60) := by omega
    have h2 : t - 60 ≤ t := by omega
    simp [windowFold, add_message_time, List.dropWhile_cons, List.filter_cons, h1, h2]
  · rw [List.concat_eq_append] at hcat
    subst hcat
    have hLs : (l2 ++ [m2]).Sorted (· ≤ ·) :=
      hs.sublist (List.sublist_append_left (l2 ++ [m2]) [t])
    have hub : ∀ x ∈ l2 ++ [m2], x ≤ t := by
      intro x hx
      exact (List.pairwise_append.mp hs).2.2 x hx t (by simp)
    have ih := windowFold_sorted l2 m2 hLs
    have hfold : windowFold [] ((l2 ++ [m2]) ++ [t])
        = (add_message_time (windowFold [] (l2 ++ [m2])) t).2 := by
      simp [windowFold, List.foldl_append]
    rw [hfold, ih]
    have hXs : (((l2 ++ [m2]).filter (fun x => decide (m2 - 60 ≤ x))) ++ [t]).Sorted (· ≤ ·) := by
      refine List.pairwise_append.mpr
        ⟨hLs.sublist (List.filter_sublist _), List.sorted_singleton t, ?_⟩
      intro x hx y hy
      obtain rfl : y = t := by simpa using hy
      exact hub x (List.mem_of_mem_filter hx)
    have hm2t : m2 ≤ t := hub m2 (by simp)
    simp only [add_message_time]
    rw [sorted_dropWhile_lt_eq_filter (t - 60) _ hXs]
    have hpq : ∀ x ∈ l2 ++ [m2],
        ((fun x => decide (t - 60 ≤ x)) x && (fun x => decide (m2 - 60 ≤ x)) x)
          = (fun x => decide (t - 60 ≤ x)) x := by
      intro x _
      by_cases hpx : t - 60 ≤ x
      · have hqx : m2 - 60 ≤ x := by omega
        simp [hpx, hqx]
      · simp [hpx]
    have hpt : t - 60 ≤ t := by omega
    calc ((l2 ++ [m2]).filter (fun x => decide (m2 - 60 ≤ x)) ++ [t]).filter
            (fun x => decide (t - 60 ≤ x))
        = ((l2 ++ [m2]).filter (fun x => decide (m2 - 60 ≤ x))).filter
            (fun x => decide (t - 60 ≤ x)) ++ [t].filter (fun x => decide (t - 60 ≤ x)) := by
          rw [List.filter_append]
      _ = (l2 ++ [m2]).filter
            (fun x => decide (t - 60 ≤ x) && decide (m2 - 60 ≤ x)) ++ [t] := by
          rw [List.filter_filter, List.filter_cons]
          simp [hpt]
      _ = (l2 ++ [m2]).filter (fun x => decide (t - 60 ≤ x)) ++ [t].filter
            (fun x => decide (t - 60 ≤ x)) := by
          rw [List.filter_congr hpq, List.filter_cons]
          simp [hpt]
      _ = ((l2 ++ [m2]) ++ [t]).filter (fun x => decide (t - 60 ≤ x)) := by
          simp only [List.filter_append]
termination_by l.length

/-- C1, amended at the window boundary: for non-decreasing call
timestamps ending in `tn`, the count returned by the last
`add_message_time` call is the number of timestamps `t` with
`tn - 60 ≤ t` (the eviction predicate `dq[0] < cutoff` is strict, so a
timestamp exactly 60 seconds old is still counted). -/
theorem windowCounts_last (l : List Int) (tn : Int)
    (h : (l ++ [tn]).Sorted (· ≤ ·)) :
    (windowCounts (l ++ [tn])).getLast? =
      some ((l ++ [tn]).countP (fun t => decide (tn - 60 ≤ t))) := by
  rw [windowCounts, windowSteps_getLast, windowFold_sorted l tn h,
    List.countP_eq_length_filter]

/-- Counterexample to C1 as stated: for the timestamps `0, 60` the second
call returns `2`, but only one timestamp is strictly newer than
`60 - 60`. -/
theorem windowCounts_boundary_cex :
    ([0, 60] : List Int).Sorted (· ≤ ·) ∧
    (windowCounts [0, 60]).getLast? ≠
      some (List.countP (fun t => decide ((60:Int) - 60 < t)) [0, 60]) := by
  constructor
  · decide
  · decide

/-- Witness for the amended C1 at the timestamps `0, 30`. -/
theorem windowCounts_last_witness :
    ([0, 30] : List Int).Sorted (· ≤ ·) ∧
    (windowCounts [0, 30]).getLast? =
      some (List.countP (fun t => decide ((30:Int) - 60 ≤ t)) [0, 30]) :=
  ⟨by decide, windowCounts_last [0] 30 (by decide)⟩

/-! ## The link policy (claims C3, C10) -/

theorem lowerC_idem (n : Nat) : lowerC (lowerC n) = lowerC n := by
  unfold lowerC
  split_ifs <;> omega

theorem lowerS_idem (s : PyStr) : lowerS (lowerS s) = lowerS s := by
  unfold lowerS
  rw [List.map_map]
  exact List.map_congr_left fun a _ => lowerC_idem a

theorem contains_allowed_link_iff (text : PyStr) (links : List PyStr) :
    contains_allowed_link text links = true ↔
      ∃ l ∈ links, l ≠ [] ∧ lowerS l <:+: lowerS text := by
  rcases links with _ | ⟨l0, ls⟩
  · simp [contains_allowed_link]
  · simp only [contains_allowed_link, List.isEmpty_cons, Bool.false_eq_true, if_false,
      List.any_eq_true, Bool.and_eq_true, Bool.not_eq_true', List.isEmpty_eq_false,
      decide_eq_true_eq]

theorem classify_allowed_iff (text : PyStr) (links : List PyStr) :
    classify text links = .Allowed ↔
      (hasLink (lowerS text) = false ∨ ∃ l ∈ links, l ≠ [] ∧ lowerS l <:+: lowerS text) := by
  have hkey : contains_allowed_link (lowerS text) links = true ↔
      ∃ l ∈ links, l ≠ [] ∧ lowerS l <:+: lowerS text := by
    rw [contains_allowed_link_iff, lowerS_idem]
  unfold classify
  by_cases h : hasLink (lowerS text) = true
  · by_cases hc : contains_allowed_link (lowerS text) links = true
    · simp [h, hc, hkey.mp hc]
    · have hc2 : contains_allowed_link (lowerS text) links = false :=
        Bool.not_eq_true _ |>.mp hc
      simp only [h, if_true, hc2, Bool.false_eq_true, if_false]
      constructor
      · intro hcontra
        exact absurd hcontra (by decide)
      · rintro (hf | hex)
        · exact absurd hf (by decide)
        · exact absurd (hkey.mpr hex) hc
  · have h2 : hasLink (lowerS text) = false := Bool.not_eq_true _ |>.mp h
    simp [h2]

/-- C3, amended: the classification operates on the lowercased text, and
only non-empty allow-list entries count.  `classify` returns `Allowed`
iff the lowercased text contains no `https?://`-URL substring or some
non-empty allow-list entry, lowercased, is a substring of the lowercased
text. -/
theorem classify_characterization (text : PyStr) (links : List PyStr) :
    classify text links = .Allowed ↔
      (hasLink (lowerS text) = false ∨ ∃ l ∈ links, l ≠ [] ∧ lowerS l <:+: lowerS text) :=
  classify_allowed_iff text links

/-- Counterexamples to C3 as stated (the spec-worded `classifySpec`
disagrees with the code): an empty allow-list entry is a substring of
every text yet the code returns `Disallowed`, and a capitalised
`HTTP://` scheme has no raw-text URL-pattern match yet the code, which
lowercases first, still takes the link path. -/
theorem classify_spec_mismatch_cex :
    classify (chars "http://a") [chars ""] ≠ classifySpec (chars "http://a") [chars ""] ∧
    classify (chars "HTTP://a") [] ≠ classifySpec (chars "HTTP://a") [] := by
  constructor <;> decide

/-- C10: an empty allow-list entry is ignored: for a text whose lowered
form contains a URL, `classify` returns `Allowed` iff some non-empty
entry's lowercase form is a substring of the lowercased text. -/
theorem empty_allowlist_entry_ignored (text : PyStr) (links : List PyStr)
    (h : hasLink (lowerS text) = true) :
    classify text links = .Allowed ↔
      ∃ l ∈ links, l ≠ [] ∧ lowerS l <:+: lowerS text := by
  rw [classify_allowed_iff]
  simp [h]

/-- Witness for C10 on a concrete text and an allow-list holding an
empty entry. -/
theorem empty_allowlist_entry_ignored_witness :
    hasLink (lowerS (chars "see HTTP://A end")) = true ∧
    (classify (chars "see HTTP://A end") [chars "", chars "http://a"] = .Allowed ↔
      ∃ l ∈ [chars "", chars "http://a"], l ≠ [] ∧
        lowerS l <:+: lowerS (chars "see HTTP://A end")) :=
  ⟨by decide, empty_allowlist_entry_ignored _ _ (by decide)⟩

/-! ## The member-join handler (claim C6) -/

/-- C6, amended: on a single join, a Store-banned member gets a
`banMember` gateway call and — only when that call succeeds — an
`unbanMember` call (on failure the `except` swallows the error before
the unban is reached), and in neither case a message; a non-banned
member gets exactly the welcome message. -/
theorem new_member_single (g : GAction → Bool) (s : Store) (chat : Int) (m : Member) :
    (new_member_handler g s chat [m]).1 =
      if is_banned_db s m.id then
        GAction.banMember chat m.id ::
          (if g (GAction.banMember chat m.id) then [GAction.unbanMember chat m.id] else [])
      else [GAction.sendMessage chat (Msg.welcome m.name)] := by
  by_cases hb : is_banned_db s m.id = true
  · by_cases hg : g (GAction.banMember chat m.id) = true
    · simp [new_member_handler, new_member_one, hb, hg]
    · simp [new_member_handler, new_member_one, hb, Bool.not_eq_true _ |>.mp hg]
  · have hb2 := Bool.not_eq_true _ |>.mp hb
    by_cases hw : g (GAction.sendMessage chat (Msg.welcome m.name)) = true
    · simp [new_member_handler, new_member_one, hb2, hw]
    · simp [new_member_handler, new_member_one, hb2, Bool.not_eq_true _ |>.mp hw]

/-- Counterexample to C6 as stated: when the gateway `banMember` call
fails, the banned rejoiner does not receive the unban call. -/
theorem rejoin_unban_skipped_cex :
    is_banned_db storeBanned7 7 = true ∧
    GAction.unbanMember 10 7 ∉ (new_member_handler gwBanFail storeBanned7 10 [⟨7, []⟩]).1 := by
  constructor
  · decide
  · decide

/-! ## The text-message handler (claims C2, C4, C8) -/

/-- C8: `message_handler` never reads the `bans` table: its gateway
calls, database mutations, deque update and raised flag are identical
for any two `bans` tables, other state equal. -/
theorem message_handler_ignores_bans (cfg : Config) (g : GAction → Bool)
    (b b2 : Int → Option BanRecord) (w : Int → Option WarnRecord) (L : List PyStr)
    (dq : List Int) (now : Int) (chat uid mid : Int) (text name title : PyStr) :
    message_handler cfg g ⟨b, w, L⟩ dq now chat uid mid text name title =
      message_handler cfg g ⟨b2, w, L⟩ dq now chat uid mid text name title := by
  simp only [message_handler, warn_user_db]
  cases w uid <;> rfl

theorem warn_user_db_bans (s : Store) (u : Int) (now : Int) :
    ((warn_user_db s u now).2).bans = s.bans := by
  unfold warn_user_db
  cases s.warns u <;> rfl

/-- C2, amended: when the gateway `banMember` call for the sender fails,
`message_handler` leaves the `bans` table unchanged — `ban_user_db` runs
after `ban_chat_member` inside the `try`, so a failed gateway ban skips
the Store write (the Store is not updated optimistically). -/
theorem ban_requires_gateway_success (cfg : Config) (g : GAction → Bool) (s : Store)
    (dq : List Int) (now : Int) (chat uid mid : Int) (text name title : PyStr)
    (hg : g (GAction.banMember chat uid) = false) :
    (applyOps s (message_handler cfg g s dq now chat uid mid text name title).ops).bans
      = s.bans := by
  simp only [message_handler]
  split_ifs <;> simp_all [applyOps, applyOp, warn_user_db_bans]

/-- Witness for the amended C2 on a concrete over-threshold message with
a failing gateway ban. -/
theorem ban_requires_gateway_success_witness :
    gwBanFail (GAction.banMember 10 2) = false ∧
    (applyOps emptyStore
      (message_handler cfg0 gwBanFail emptyStore [] 0 10 2 5 (chars "x") [] []).ops).bans
      = emptyStore.bans :=
  ⟨rfl, ban_requires_gateway_success cfg0 gwBanFail emptyStore [] 0 10 2 5 (chars "x") [] [] rfl⟩

/-- Counterexample to C2 as stated: user `2` reaches the third spam warn
(the engine decides to ban and attempts the gateway ban), the gateway
ban fails, and no `BanRecord` is written to the Store. -/
theorem ban_store_skipped_on_failure_cex :
    GAction.sendMessage 10 (Msg.spamWarn 3)
        ∈ (message_handler cfg0 gwBanFail storeWarned2 [] 0 10 2 5 (chars "x") [] []).attempted ∧
    GAction.banMember 10 2
        ∈ (message_handler cfg0 gwBanFail storeWarned2 [] 0 10 2 5 (chars "x") [] []).attempted ∧
    gwBanFail (GAction.banMember 10 2) = false ∧
    (applyOps storeWarned2
      (message_handler cfg0 gwBanFail storeWarned2 [] 0 10 2 5 (chars "x") [] []).ops).bans 2
      = none := by
  refine ⟨?_, ?_, rfl, ?_⟩ <;> decide

/-- C4: a message whose `add_message_time` count exceeds `SPAM_MAX`
takes the spam path: no `deleteMessage` gateway call, no
link-reasoned ban record, and the result does not depend on the `links`
table (the link check is never evaluated). -/
theorem spam_path_skips_link_check (cfg : Config) (g : GAction → Bool) (s : Store)
    (dq : List Int) (now : Int) (chat uid mid : Int) (text name title : PyStr)
    (htext : text ≠ [])
    (hchat : cfg.ALLOWED_CHAT_IDS = [] ∨ chat ∈ cfg.ALLOWED_CHAT_IDS)
    (howner : uid ≠ cfg.OWNER_ID)
    (hspam : cfg.SPAM_MAX < (add_message_time dq now).1) :
    (∀ c m, GAction.deleteMessage c m
        ∉ (message_handler cfg g s dq now chat uid mid text name title).attempted) ∧
    (∀ u t, StoreOp.opBan u Reason.postedDisallowedLink t
        ∉ (message_handler cfg g s dq now chat uid mid text name title).ops) ∧
    (∀ links2, message_handler cfg g { s with links := links2 } dq now chat uid mid text name title
        = message_handler cfg g s dq now chat uid mid text name title) := by
  have hchat2 : (!cfg.ALLOWED_CHAT_IDS.isEmpty && !cfg.ALLOWED_CHAT_IDS.contains chat)
      = false := by
    rcases hchat with h | h
    · simp [h]
    · have hc : cfg.ALLOWED_CHAT_IDS.contains chat = true :=
        List.elem_eq_true_of_mem h
      simp only [hc, Bool.not_true, Bool.and_false]
  refine ⟨?_, ?_, ?_⟩
  · intro c m
    simp only [message_handler, htext, hchat2, howner, hspam]
    simp only [if_false, if_true, Bool.false_eq_true, ite_false, ite_true]
    split_ifs <;> simp
  · intro u t
    simp only [message_handler, htext, hchat2, howner, hspam]
    simp only [if_false, if_true, Bool.false_eq_true, ite_false, ite_true]
    split_ifs <;> simp
  · intro links2
    rcases hw : s.warns uid with _ | r <;>
      · simp only [message_handler, warn_user_db, htext, hchat2, howner, hspam, hw]
        split_ifs <;> rfl

/-- Witness for C4 on a concrete over-threshold message. -/
theorem spam_path_skips_link_check_witness :
    ((chars "x" : PyStr) ≠ [] ∧
     (cfg0.ALLOWED_CHAT_IDS = [] ∨ (10:Int) ∈ cfg0.ALLOWED_CHAT_IDS) ∧
     (2:Int) ≠ cfg0.OWNER_ID ∧
     cfg0.SPAM_MAX < (add_message_time [] 0).1) ∧
    ((∀ c m, GAction.deleteMessage c m
        ∉ (message_handler cfg0 gwOk emptyStore [] 0 10 2 5 (chars "x") [] []).attempted) ∧
     (∀ u t, StoreOp.opBan u Reason.postedDisallowedLink t
        ∉ (message_handler cfg0 gwOk emptyStore [] 0 10 2 5 (chars "x") [] []).ops) ∧
     (∀ links2,
        message_handler cfg0 gwOk { emptyStore with links := links2 } [] 0 10 2 5
            (chars "x") [] []
          = message_handler cfg0 gwOk emptyStore [] 0 10 2 5 (chars "x") [] [])) :=
  ⟨⟨by decide, Or.inl rfl, by decide, by decide⟩,
    spam_path_skips_link_check cfg0 gwOk emptyStore [] 0 10 2 5 (chars "x") [] []
      (by decide) (Or.inl rfl) (by decide) (by decide)⟩

end PowerBot
